import Mathlib

/-!
# Car-sharing reservation platform: reservation service and user registration

A shallow embedding of `reservationMS/reservation.go` (handlers
`GetAvailableVehicles`, `CreateReservation`, `ModifyReservation`,
`CancelReservation`) and of `users.go` (`ValidateMembership`, `registerUser`).

The relational store is explicit state: each SQL statement of the source is a
function on the tables, each handler threads the store through its statements
in source order.  A statement that the driver reports as failed is an input of
the handler (an optional error text per statement), so every error branch of
the source is present.
-/

namespace reservationMS

/-! ## Data model -/

/-- Timestamps (`time.Time`), kept abstract as an integer instant. -/
abbrev Time := Int

/-- Go struct `Reservation` (reservation.go, lines 16-22). -/
structure Reservation where
  ID : Int
  UserID : Int
  VehicleID : Int
  StartTime : Time
  EndTime : Time
deriving DecidableEq, Repr

/-- Go struct `Vehicle` (reservation.go, lines 24-28); also the row type of the
`vehicles` table, whose columns are `id`, `model`, `is_available`. -/
structure Vehicle where
  ID : Int
  Model : String
  IsAvailable : String
deriving DecidableEq, Repr

/-- Modelled from the spec: the schema is not part of the sources.  The store
holds the tables `vehicles(id, model, is_available)` and
`reservations(id, user_id, vehicle_id, start_time, end_time)` in row order, and
the counter from which the store assigns a reservation its identity on
creation (what `LastInsertId` reports). -/
structure Store where
  vehicles : List Vehicle
  reservations : List Reservation
  nextID : Int
deriving DecidableEq, Repr

/-- A scalar JSON value. -/
inductive Scalar where
  | num (n : Int)
  | str (s : String)
deriving DecidableEq, Repr

/-- What a handler writes after the status line: the plain text of
`http.Error`, or the value `json.NewEncoder(w).Encode` produces (a JSON
string, `null`, or an array of objects given by their fields in order). -/
inductive Body where
  | text (msg : String)
  | jsonString (s : String)
  | jsonNull
  | jsonArray (items : List (List (String × Scalar)))
deriving DecidableEq, Repr

/-- Status code and body of an HTTP response. -/
structure Response where
  status : Nat
  body : Body
deriving DecidableEq, Repr

/-- A Go slice value: `none` is the nil slice, `some l` a non-nil slice. -/
abbrev Slice (α : Type) := Option (List α)

/-- Go `append(s, x)`: the result is never nil. -/
def Slice.append {α : Type} (s : Slice α) (x : α) : Slice α :=
  some (s.getD [] ++ [x])

/-- Fields of one `Vehicle` under `encoding/json`: the three tagged fields, none
of them `omitempty`. -/
def encodeVehicle (v : Vehicle) : List (String × Scalar) :=
  [("id", Scalar.num v.ID), ("model", Scalar.str v.Model),
   ("is_available", Scalar.str v.IsAvailable)]

/-- `json.Encode` of a `[]Vehicle`: a nil slice encodes as `null`, a non-nil
slice as an array. -/
def encodeVehicles : Slice Vehicle → Body
  | none => Body.jsonNull
  | some l => Body.jsonArray (l.map encodeVehicle)

/-! ## SQL statements -/

/-- Rows of `SELECT id, model FROM vehicles WHERE is_available = 'available'`,
in table order; the comparison is equality with the stored text. -/
def selectAvailable (s : Store) : List (Int × String) :=
  (s.vehicles.filter (fun v => v.IsAvailable == "available")).map
    (fun v => (v.ID, v.Model))

/-- Row of `SELECT is_available FROM vehicles WHERE id = ?` that `QueryRow`
scans: the first matching row, if any. -/
def selectIsAvailable (s : Store) (vehicleID : Int) : Option String :=
  (s.vehicles.find? (fun v => v.ID == vehicleID)).map (fun v => v.IsAvailable)

/-- `INSERT INTO reservations (user_id, vehicle_id, start_time, end_time)
VALUES (?, ?, ?, ?)`: the store assigns the identity and advances its counter. -/
def insertReservation (s : Store) (r : Reservation) : Store :=
  { s with
    reservations := s.reservations ++
      [{ ID := s.nextID, UserID := r.UserID, VehicleID := r.VehicleID,
         StartTime := r.StartTime, EndTime := r.EndTime }],
    nextID := s.nextID + 1 }

/-- `UPDATE vehicles SET is_available = 'unavailable' WHERE id = ?`. -/
def markUnavailable (s : Store) (vehicleID : Int) : Store :=
  { s with
    vehicles := s.vehicles.map
      (fun v => if v.ID == vehicleID then { v with IsAvailable := "unavailable" } else v) }

/-- `UPDATE reservations SET start_time = ?, end_time = ? WHERE id = ?`. -/
def updateTimes (s : Store) (startTime endTime : Time) (id : Int) : Store :=
  { s with
    reservations := s.reservations.map
      (fun r => if r.ID == id then { r with StartTime := startTime, EndTime := endTime } else r) }

/-- Value of a run of decimal digits, `none` when a character is not a digit. -/
def digitsValue : List Char → Nat → Option Nat
  | [], acc => some acc
  | c :: cs, acc =>
    if c.isDigit then digitsValue cs (acc * 10 + (c.toNat - 48)) else none

/-- The integer a text parameter stands for when the store compares it with an
integer column: a decimal numeral with an optional minus sign. -/
def textToInt (p : String) : Option Int :=
  match p.toList with
  | [] => none
  | '-' :: ds => if ds.isEmpty then none else (digitsValue ds 0).map (fun n => -(n : Int))
  | ds => (digitsValue ds 0).map (fun n => (n : Int))

/-- The condition `id = ?` of a statement whose parameter is the text taken
from the request path. -/
def idMatches (id : Int) (p : String) : Bool :=
  textToInt p == some id

/-- `UPDATE vehicles v JOIN reservations r ON v.id = r.vehicle_id
SET v.is_available = 'available' WHERE r.id = ?`. -/
def releaseVehicle (s : Store) (p : String) : Store :=
  { s with
    vehicles := s.vehicles.map
      (fun v =>
        if s.reservations.any (fun r => idMatches r.ID p && r.VehicleID == v.ID)
        then { v with IsAvailable := "available" } else v) }

/-- `DELETE FROM reservations WHERE id = ?`. -/
def deleteReservation (s : Store) (p : String) : Store :=
  { s with reservations := s.reservations.filter (fun r => !idMatches r.ID p) }

/-! ## Handlers -/

/-- The loop of lines 53-61: starting from the nil slice, each row is scanned
into the `ID` and `Model` of a fresh `Vehicle` and appended. -/
def scanRows (rows : List (Int × String)) : Slice Vehicle :=
  rows.foldl (fun acc row => Slice.append acc ⟨row.1, row.2, ""⟩) none

/-- Handler `GetAvailableVehicles` (reservation.go, lines 45-65).  `queryErr` is
the error of `db.Query`, `scanErr` the error of the first failing `rows.Scan`
with the index of its row. -/
def GetAvailableVehicles (s : Store) (queryErr : Option String)
    (scanErr : Option (Nat × String)) : Response × Store :=
  match queryErr with
  | some e => (⟨500, Body.text ("Unable to fetch vehicles: " ++ e)⟩, s)
  | none =>
    let rows := selectAvailable s
    match scanErr with
    | some (i, e) =>
      if i < rows.length then (⟨500, Body.text ("Error reading data: " ++ e)⟩, s)
      else (⟨200, encodeVehicles (scanRows rows)⟩, s)
    | none => (⟨200, encodeVehicles (scanRows rows)⟩, s)

/-- Errors the driver reports for the statements of `CreateReservation`, in
source order; `none` is a statement that executes. -/
structure CreateFaults where
  selectErr : Option String
  insertErr : Option String
  lastInsertIdErr : Option String
  updateErr : Option String
deriving DecidableEq, Repr

/-- Every statement of `CreateReservation` executes. -/
def CreateFaults.ok : CreateFaults := ⟨none, none, none, none⟩

/-- Outcome of `CreateReservation`: the response, the store, and the
reservation handed to `notifyPaymentMS` (when the handler reaches line 111). -/
structure CreateResult where
  resp : Response
  store : Store
  notified : Option Reservation
deriving DecidableEq, Repr

/-- Handler `CreateReservation` (reservation.go, lines 71-115). -/
def CreateReservation (s : Store) (body : Except String Reservation)
    (f : CreateFaults) : CreateResult :=
  match body with
  | Except.error e => ⟨⟨400, Body.text ("Invalid request body: " ++ e)⟩, s, none⟩
  | Except.ok reservation =>
    -- err != nil || isAvailable != "available"
    if f.selectErr.isSome || selectIsAvailable s reservation.VehicleID != some "available" then
      ⟨⟨400, Body.text "Vehicle not available"⟩, s, none⟩
    else
      match f.insertErr with
      | some e => ⟨⟨500, Body.text ("Unable to create reservation: " ++ e)⟩, s, none⟩
      | none =>
        let s1 := insertReservation s reservation
        match f.lastInsertIdErr with
        | some e =>
          ⟨⟨500, Body.text ("Failed to retrieve reservation ID: " ++ e)⟩, s1, none⟩
        | none =>
          let reservation1 := { reservation with ID := s.nextID }
          match f.updateErr with
          | some e =>
            ⟨⟨500, Body.text ("Unable to update vehicle availability: " ++ e)⟩, s1, none⟩
          | none =>
            ⟨⟨201, Body.jsonString "Reservation created successfully"⟩,
              markUnavailable s1 reservation.VehicleID, some reservation1⟩

/-- Handler `ModifyReservation` (reservation.go, lines 149-167). -/
def ModifyReservation (s : Store) (body : Except String Reservation)
    (execErr : Option String) : Response × Store :=
  match body with
  | Except.error e => (⟨400, Body.text ("Invalid request body: " ++ e)⟩, s)
  | Except.ok reservation =>
    match execErr with
    | some e => (⟨500, Body.text ("Unable to modify reservation: " ++ e)⟩, s)
    | none =>
      (⟨200, Body.jsonString "Reservation updated successfully"⟩,
        updateTimes s reservation.StartTime reservation.EndTime reservation.ID)

/-- Handler `CancelReservation` (reservation.go, lines 170-197); `reservationID`
is the path variable `id`. -/
def CancelReservation (s : Store) (reservationID : String)
    (updateErr deleteErr : Option String) : Response × Store :=
  if reservationID == "" then
    (⟨400, Body.text "Reservation ID is required"⟩, s)
  else
    match updateErr with
    | some e => (⟨500, Body.text ("Unable to cancel reservation: " ++ e)⟩, s)
    | none =>
      let s1 := releaseVehicle s reservationID
      match deleteErr with
      | some e => (⟨500, Body.text ("Unable to cancel reservation: " ++ e)⟩, s1)
      | none =>
        (⟨200, Body.jsonString "Reservation canceled successfully"⟩,
          deleteReservation s1 reservationID)

end reservationMS

namespace users

open reservationMS (Response Body)

/-! ## User registration (`users.go`) -/

/-- Go struct `User` (users.go, lines 18-23). -/
structure User where
  Email : String
  Password : String
  Phone : String
  Membership : String
deriving DecidableEq, Repr

/-- `unicode.ToLower` on the runes whose image is an ASCII letter: `A`-`Z`,
U+0130 (to `i`) and U+212A (to `k`).  Every other rune is left as it is: its
image under the full table is again outside ASCII, so comparisons of a
lower-cased string with an ASCII word are not affected. -/
def toLowerRune (c : Char) : Char :=
  if 65 ≤ c.toNat ∧ c.toNat ≤ 90 then Char.ofNat (c.toNat + 32)
  else if c.toNat = 0x130 then Char.ofNat 105
  else if c.toNat = 0x212A then Char.ofNat 107
  else c

/-- `strings.ToLower`: every rune mapped to lower case. -/
def ToLower (s : String) : String :=
  String.mk (s.toList.map toLowerRune)

/-- `ValidateMembership` (users.go, lines 37-40). -/
def ValidateMembership (membership : String) : Bool :=
  let normalizedMembership := ToLower membership
  normalizedMembership == "basic" || normalizedMembership == "premium"

/-- Handler `registerUser` (users.go, lines 49-89) on the `users` table.
`HashPassword` is the bcrypt hashing of lines 43-46 (salted, so an input of the
model), `insertErr` the error of the `INSERT`. -/
def registerUser (HashPassword : String → Except String String) (table : List User)
    (body : Except String User) (insertErr : Option String) : Response × List User :=
  match body with
  | Except.error e => (⟨400, Body.text e⟩, table)
  | Except.ok user =>
    if !ValidateMembership user.Membership then
      (⟨400, Body.text "Invalid membership level. It must be 'Basic' or 'Premium'."⟩, table)
    else
      match HashPassword user.Password with
      | Except.error _ => (⟨500, Body.text "Failed to hash password"⟩, table)
      | Except.ok hashedPassword =>
        let user1 := { user with Password := hashedPassword }
        match insertErr with
        | some _ => (⟨500, Body.text "Unable to register user"⟩, table)
        | none =>
          (⟨201, Body.jsonString "User successfully registered"⟩,
            table ++ [⟨user1.Email, user1.Password, user1.Phone, user1.Membership⟩])

end users

namespace reservationMS

/-! ## Sequences of calls and interleaved calls -/

/-- Number of ledger rows that reference the vehicle `vehicleID`. -/
def refCount (s : Store) (vehicleID : Int) : Nat :=
  s.reservations.countP (fun r => r.VehicleID == vehicleID)

/-- The identity counter of the store is ahead of every stored identity. -/
def Store.Fresh (s : Store) : Prop :=
  ∀ r ∈ s.reservations, r.ID < s.nextID

/-- The invariant carried along a sequence of calls: an `available` vehicle is
referenced by no reservation, an `unavailable` one by exactly one, and no
vehicle has another availability value. -/
def Mirrors (s : Store) : Prop :=
  ∀ v ∈ s.vehicles,
    (v.IsAvailable = "available" ∧ refCount s v.ID = 0) ∨
    (v.IsAvailable = "unavailable" ∧ refCount s v.ID = 1)

/-- One request to the reservation service. -/
inductive Call where
  | create (body : Except String Reservation)
  | modify (body : Except String Reservation)
  | cancel (reservationID : String)

/-- The store after one call all of whose store statements execute. -/
def perform (s : Store) : Call → Store
  | Call.create body => (CreateReservation s body CreateFaults.ok).store
  | Call.modify body => (ModifyReservation s body none).2
  | Call.cancel reservationID => (CancelReservation s reservationID none none).2

/-- The store after a sequence of calls run one after another. -/
def performAll (s : Store) (calls : List Call) : Store :=
  calls.foldl perform s

/-- Where a `CreateReservation` call with a decoded body stands between its
store statements (each statement executing): before the availability read
(line 81), before the `INSERT` (line 88), before the `UPDATE` (line 104), or
finished with its response. -/
inductive Progress where
  | start (r : Reservation)
  | checked (r : Reservation)
  | inserted (r : Reservation)
  | done (resp : Response)
deriving DecidableEq, Repr

/-- The next store statement of a `CreateReservation` call, run atomically. -/
def stepCreate (s : Store) : Progress → Store × Progress
  | Progress.start r =>
    if selectIsAvailable s r.VehicleID != some "available" then
      (s, Progress.done ⟨400, Body.text "Vehicle not available"⟩)
    else (s, Progress.checked r)
  | Progress.checked r =>
    (insertReservation s r, Progress.inserted { r with ID := s.nextID })
  | Progress.inserted r =>
    (markUnavailable s r.VehicleID,
      Progress.done ⟨201, Body.jsonString "Reservation created successfully"⟩)
  | Progress.done resp => (s, Progress.done resp)

/-- Two `CreateReservation` calls in flight over one store. -/
structure Config where
  store : Store
  first : Progress
  second : Progress
deriving DecidableEq, Repr

/-- One entry of a schedule: `false` lets the first call run its next
statement, `true` the second. -/
def stepConfig (c : Config) (pick : Bool) : Config :=
  if pick then
    ⟨(stepCreate c.store c.second).1, c.first, (stepCreate c.store c.second).2⟩
  else
    ⟨(stepCreate c.store c.first).1, (stepCreate c.store c.first).2, c.second⟩

/-- Two calls run under a schedule of their store statements. -/
def runSchedule (s : Store) (r1 r2 : Reservation) (schedule : List Bool) : Config :=
  schedule.foldl stepConfig ⟨s, Progress.start r1, Progress.start r2⟩

/-- A schedule that runs the three statements of one call and then the three
statements of the other. -/
def Serial (schedule : List Bool) : Prop :=
  schedule = [false, false, false, true, true, true] ∨
  schedule = [true, true, true, false, false, false]

instance (schedule : List Bool) : Decidable (Serial schedule) := by
  unfold Serial; infer_instance

/-- The response of a successful creation. -/
def created : Response := ⟨201, Body.jsonString "Reservation created successfully"⟩

/-- The response of a creation refused for availability. -/
def vehicleUnavailable : Response := ⟨400, Body.text "Vehicle not available"⟩

end reservationMS

namespace reservationMS

/-! ## Facts about the store statements -/

theorem selectIsAvailable_eq_some {s : Store} {vehicleID : Int} {a : String}
    (h : selectIsAvailable s vehicleID = some a) :
    ∃ v ∈ s.vehicles, v.ID = vehicleID ∧ v.IsAvailable = a := by
  unfold selectIsAvailable at h
  rw [Option.map_eq_some'] at h
  obtain ⟨v, hv, hav⟩ := h
  exact ⟨v, List.mem_of_find?_eq_some hv, by simpa using List.find?_some hv, hav⟩

theorem selectIsAvailable_of_all {s : Store} {vehicleID : Int} {a : String}
    (hex : ∃ v ∈ s.vehicles, v.ID = vehicleID)
    (hall : ∀ v ∈ s.vehicles, v.ID = vehicleID → v.IsAvailable = a) :
    selectIsAvailable s vehicleID = some a := by
  obtain ⟨w, hw, hid⟩ := hex
  cases hfind : s.vehicles.find? (fun v => v.ID == vehicleID) with
  | none =>
    have := List.find?_eq_none.mp hfind w hw
    simp [hid] at this
  | some v =>
    have hm := List.mem_of_find?_eq_some hfind
    have hi : v.ID = vehicleID := by simpa using List.find?_some hfind
    simp [selectIsAvailable, hfind, hall v hm hi]

theorem mem_markUnavailable {s : Store} {vehicleID : Int} {v : Vehicle}
    (h : v ∈ (markUnavailable s vehicleID).vehicles) :
    ∃ w ∈ s.vehicles, v.ID = w.ID ∧ v.Model = w.Model ∧
      ((w.ID = vehicleID ∧ v.IsAvailable = "unavailable") ∨ (w.ID ≠ vehicleID ∧ v = w)) := by
  simp only [markUnavailable, List.mem_map] at h
  obtain ⟨w, hw, rfl⟩ := h
  refine ⟨w, hw, ?_⟩
  by_cases hid : w.ID = vehicleID <;> simp [hid]

/-! ## C1: creation refused when the vehicle is not available -/

/-- C1: when no row of `vehicles` with the requested id is `available`
(no such vehicle, or its `is_available` is another value), `CreateReservation`
answers 400 "Vehicle not available", whatever the driver reports, and the
store is the one it started from (no reservation added, no availability
changed); nothing is handed to the payment notifier. -/
theorem CreateReservation_refuses_unavailable (s : Store) (r : Reservation)
    (f : CreateFaults)
    (h : ∀ v ∈ s.vehicles, v.ID = r.VehicleID → v.IsAvailable ≠ "available") :
    CreateReservation s (Except.ok r) f =
      ⟨⟨400, Body.text "Vehicle not available"⟩, s, none⟩ := by
  have hne : selectIsAvailable s r.VehicleID ≠ some "available" := by
    intro hc
    obtain ⟨v, hv, hid, hav⟩ := selectIsAvailable_eq_some hc
    exact h v hv hid hav
  simp [CreateReservation, hne]

theorem CreateReservation_refuses_unavailable_witness :
    (∀ v ∈ (Store.mk [⟨7, "Civic", "unavailable"⟩] [⟨1, 3, 7, 10, 12⟩] 2).vehicles,
        v.ID = (Reservation.mk 0 4 7 20 30).VehicleID → v.IsAvailable ≠ "available") ∧
    CreateReservation ⟨[⟨7, "Civic", "unavailable"⟩], [⟨1, 3, 7, 10, 12⟩], 2⟩
        (Except.ok ⟨0, 4, 7, 20, 30⟩) CreateFaults.ok =
      ⟨⟨400, Body.text "Vehicle not available"⟩,
        ⟨[⟨7, "Civic", "unavailable"⟩], [⟨1, 3, 7, 10, 12⟩], 2⟩, none⟩ :=
  ⟨by decide,
   CreateReservation_refuses_unavailable ⟨[⟨7, "Civic", "unavailable"⟩], [⟨1, 3, 7, 10, 12⟩], 2⟩
     ⟨0, 4, 7, 20, 30⟩ CreateFaults.ok (by decide)⟩

end reservationMS

namespace reservationMS

theorem CreateReservation_of_available {s : Store} {r : Reservation}
    (h : selectIsAvailable s r.VehicleID = some "available") :
    CreateReservation s (Except.ok r) CreateFaults.ok =
      ⟨⟨201, Body.jsonString "Reservation created successfully"⟩,
        markUnavailable (insertReservation s r) r.VehicleID,
        some { r with ID := s.nextID }⟩ := by
  simp [CreateReservation, CreateFaults.ok, h]

theorem scanRows_some (rows : List (Int × String)) (acc : List Vehicle) :
    rows.foldl (fun acc row => Slice.append acc ⟨row.1, row.2, ""⟩) (some acc) =
      some (acc ++ rows.map (fun row => (⟨row.1, row.2, ""⟩ : Vehicle))) := by
  induction rows generalizing acc with
  | nil => simp
  | cons row rest ih =>
    rw [List.foldl_cons]
    have : Slice.append (some acc) (⟨row.1, row.2, ""⟩ : Vehicle) =
        some (acc ++ [⟨row.1, row.2, ""⟩]) := rfl
    rw [this, ih]
    simp

theorem scanRows_cons (row : Int × String) (rest : List (Int × String)) :
    scanRows (row :: rest) =
      some ((row :: rest).map (fun row => (⟨row.1, row.2, ""⟩ : Vehicle))) := by
  unfold scanRows
  rw [List.foldl_cons]
  have : Slice.append (none : Slice Vehicle) (⟨row.1, row.2, ""⟩ : Vehicle) =
      some ([] ++ [⟨row.1, row.2, ""⟩]) := rfl
  rw [this, scanRows_some]
  simp

theorem scanRows_nil : scanRows [] = none := rfl

theorem GetAvailableVehicles_ok (s : Store) :
    GetAvailableVehicles s none none = (⟨200, encodeVehicles (scanRows (selectAvailable s))⟩, s) := by
  simp [GetAvailableVehicles]

theorem mem_selectAvailable {s : Store} {row : Int × String}
    (h : row ∈ selectAvailable s) :
    ∃ v ∈ s.vehicles, v.IsAvailable = "available" ∧ v.ID = row.1 ∧ v.Model = row.2 := by
  simp only [selectAvailable, List.mem_map, List.mem_filter] at h
  obtain ⟨v, ⟨hv, hav⟩, rfl⟩ := h
  exact ⟨v, hv, by simpa using hav, rfl, rfl⟩

/-- An entry of the array `GetAvailableVehicles` writes comes from a row of
the availability query. -/
theorem mem_GetAvailableVehicles_items {s : Store} {items : List (List (String × Scalar))}
    (h : (GetAvailableVehicles s none none).1.body = Body.jsonArray items)
    {e : List (String × Scalar)} (he : e ∈ items) :
    ∃ row ∈ selectAvailable s, e = encodeVehicle ⟨row.1, row.2, ""⟩ := by
  rw [GetAvailableVehicles_ok] at h
  cases hrows : selectAvailable s with
  | nil => simp [hrows, scanRows_nil, encodeVehicles] at h
  | cons row rest =>
    simp only [hrows, scanRows_cons, encodeVehicles, Body.jsonArray.injEq] at h
    subst h
    simp only [List.map_map, List.mem_map] at he
    obtain ⟨row1, hrow1, rfl⟩ := he
    exact ⟨row1, hrow1, rfl⟩

/-! ## C4: creation on an available vehicle -/

/-- C4: when the vehicle of the request exists and is `available`, a
`CreateReservation` whose statements execute answers 201; the ledger is the
old ledger followed by exactly one record, carrying the identity the store
assigned (its counter, which no earlier record carries when the counter is
ahead of the ledger) and the request's user, vehicle, start and end; the
vehicle is still in the table and is `unavailable`; `GetAvailableVehicles`
does not list it (neither in the rows it reads nor in the array it writes). -/
theorem CreateReservation_books_available (s : Store) (r : Reservation)
    (hex : ∃ v ∈ s.vehicles, v.ID = r.VehicleID)
    (hav : ∀ v ∈ s.vehicles, v.ID = r.VehicleID → v.IsAvailable = "available") :
    (CreateReservation s (Except.ok r) CreateFaults.ok).resp =
        ⟨201, Body.jsonString "Reservation created successfully"⟩ ∧
    (CreateReservation s (Except.ok r) CreateFaults.ok).store.reservations =
        s.reservations ++ [⟨s.nextID, r.UserID, r.VehicleID, r.StartTime, r.EndTime⟩] ∧
    (s.Fresh → ∀ old ∈ s.reservations, old.ID ≠ s.nextID) ∧
    (∃ v ∈ (CreateReservation s (Except.ok r) CreateFaults.ok).store.vehicles,
        v.ID = r.VehicleID) ∧
    (∀ v ∈ (CreateReservation s (Except.ok r) CreateFaults.ok).store.vehicles,
        v.ID = r.VehicleID → v.IsAvailable = "unavailable") ∧
    (∀ row ∈ selectAvailable (CreateReservation s (Except.ok r) CreateFaults.ok).store,
        row.1 ≠ r.VehicleID) ∧
    (∀ items,
        (GetAvailableVehicles (CreateReservation s (Except.ok r) CreateFaults.ok).store
          none none).1.body = Body.jsonArray items →
        ∀ e ∈ items, ("id", Scalar.num r.VehicleID) ∉ e) := by
  have hsel := selectIsAvailable_of_all hex hav
  rw [CreateReservation_of_available hsel]
  have hun : ∀ v ∈ (markUnavailable (insertReservation s r) r.VehicleID).vehicles,
      v.ID = r.VehicleID → v.IsAvailable = "unavailable" := by
    intro v hv hid
    obtain ⟨w, _, hvw, _, h | h⟩ := mem_markUnavailable hv
    · exact h.2
    · exact absurd (hvw ▸ hid) h.1
  have hrows : ∀ row ∈ selectAvailable (markUnavailable (insertReservation s r) r.VehicleID),
      row.1 ≠ r.VehicleID := by
    intro row hrow hid
    obtain ⟨v, hv, hva, hvi, _⟩ := mem_selectAvailable hrow
    have := hun v hv (hvi.trans hid)
    rw [hva] at this
    exact absurd this (by decide)
  refine ⟨rfl, rfl, ?_, ?_, hun, hrows, ?_⟩
  · intro hf old hold heq
    have := hf old hold
    omega
  · obtain ⟨w, hw, hid⟩ := hex
    refine ⟨if w.ID == r.VehicleID then { w with IsAvailable := "unavailable" } else w, ?_, ?_⟩
    · simp only [markUnavailable, insertReservation, List.mem_map]
      exact ⟨w, hw, rfl⟩
    · simp [hid]
  · intro items hitems e he hmem
    obtain ⟨row, hrow, rfl⟩ := mem_GetAvailableVehicles_items hitems he
    have := hrows row hrow
    simp [encodeVehicle] at hmem
    exact this hmem.symm

theorem CreateReservation_books_available_witness :
    (CreateReservation ⟨[⟨7, "Civic", "available"⟩, ⟨8, "Golf", "available"⟩], [], 1⟩
        (Except.ok ⟨0, 3, 7, 10, 12⟩) CreateFaults.ok).store =
      ⟨[⟨7, "Civic", "unavailable"⟩, ⟨8, "Golf", "available"⟩], [⟨1, 3, 7, 10, 12⟩], 2⟩ ∧
    (CreateReservation ⟨[⟨7, "Civic", "available"⟩, ⟨8, "Golf", "available"⟩], [], 1⟩
        (Except.ok ⟨0, 3, 7, 10, 12⟩) CreateFaults.ok).resp =
      ⟨201, Body.jsonString "Reservation created successfully"⟩ :=
  ⟨by decide,
   (CreateReservation_books_available
      ⟨[⟨7, "Civic", "available"⟩, ⟨8, "Golf", "available"⟩], [], 1⟩ ⟨0, 3, 7, 10, 12⟩
      ⟨⟨7, "Civic", "available"⟩, by decide, by decide⟩ (by decide)).1⟩

end reservationMS

namespace reservationMS

/-! ## Cancellation -/

theorem idMatches_iff (id : Int) (p : String) :
    idMatches id p = true ↔ textToInt p = some id := by
  simp [idMatches]

theorem ne_empty_of_textToInt {p : String} {id : Int} (h : textToInt p = some id) :
    p ≠ "" := by
  intro hp
  subst hp
  simp [textToInt] at h

theorem CancelReservation_of_ne_empty {s : Store} {p : String} (hp : p ≠ "") :
    CancelReservation s p none none =
      (⟨200, Body.jsonString "Reservation canceled successfully"⟩,
        deleteReservation (releaseVehicle s p) p) := by
  simp [CancelReservation, hp]

/-- C3: when the ledger holds a reservation `r` and the path text stands for
its identifier, a `CancelReservation` whose statements execute answers 200;
afterwards every row of `vehicles` with the id `r` references is `available`
(the table keeps the same vehicles, in the same order), and the ledger holds
no reservation with that identifier. -/
theorem CancelReservation_releases (s : Store) (p : String) (r : Reservation)
    (hr : r ∈ s.reservations) (hp : textToInt p = some r.ID) :
    (CancelReservation s p none none).1 =
        ⟨200, Body.jsonString "Reservation canceled successfully"⟩ ∧
    (∀ v ∈ (CancelReservation s p none none).2.vehicles,
        v.ID = r.VehicleID → v.IsAvailable = "available") ∧
    (CancelReservation s p none none).2.vehicles.map (fun v => (v.ID, v.Model)) =
        s.vehicles.map (fun v => (v.ID, v.Model)) ∧
    (∀ q ∈ (CancelReservation s p none none).2.reservations, q.ID ≠ r.ID) := by
  rw [CancelReservation_of_ne_empty (ne_empty_of_textToInt hp)]
  refine ⟨rfl, ?_, ?_, ?_⟩
  · intro v hv hid
    simp only [deleteReservation, releaseVehicle, List.mem_map] at hv
    obtain ⟨w, _, rfl⟩ := hv
    have hany : s.reservations.any (fun q => idMatches q.ID p && q.VehicleID == w.ID) = true := by
      rw [List.any_eq_true]
      refine ⟨r, hr, ?_⟩
      have hw : w.ID = r.VehicleID := by
        by_cases hc : s.reservations.any (fun q => idMatches q.ID p && q.VehicleID == w.ID) = true
        · simpa [hc] using hid
        · simpa [hc] using hid
      simp [(idMatches_iff r.ID p).mpr hp, hw]
    simp [hany]
  · simp only [deleteReservation, releaseVehicle, List.map_map]
    apply List.map_congr_left
    intro w _
    dsimp only [Function.comp]
    split <;> rfl
  · intro q hq heq
    simp only [deleteReservation, releaseVehicle, List.mem_filter] at hq
    have := (idMatches_iff q.ID p).mpr (heq ▸ hp)
    simp [this] at hq

theorem CancelReservation_releases_witness :
    (Reservation.mk 1 3 7 10 12) ∈
        (Store.mk [⟨7, "Civic", "unavailable"⟩] [⟨1, 3, 7, 10, 12⟩] 2).reservations ∧
    textToInt "1" = some (Reservation.mk 1 3 7 10 12).ID ∧
    (CancelReservation ⟨[⟨7, "Civic", "unavailable"⟩], [⟨1, 3, 7, 10, 12⟩], 2⟩ "1" none none).1 =
        ⟨200, Body.jsonString "Reservation canceled successfully"⟩ ∧
    (CancelReservation ⟨[⟨7, "Civic", "unavailable"⟩], [⟨1, 3, 7, 10, 12⟩], 2⟩ "1" none none).2 =
        ⟨[⟨7, "Civic", "available"⟩], [], 2⟩ :=
  ⟨by decide, by decide,
   (CancelReservation_releases ⟨[⟨7, "Civic", "unavailable"⟩], [⟨1, 3, 7, 10, 12⟩], 2⟩ "1"
      ⟨1, 3, 7, 10, 12⟩ (by decide) (by decide)).1,
   by decide⟩

/-! ## C5: modification -/

/-- C5: `ModifyReservation` with a decoded body leaves the `vehicles` table and
the identity counter as they were, and changes the ledger row by row: every
row keeps its identifier, user and vehicle, a row whose identifier differs
from the body's is unchanged, and when the `UPDATE` executes the rows with
the body's identifier carry the body's start and end time (when it does not
execute the answer is 500 and the ledger is unchanged). -/
theorem ModifyReservation_frame (s : Store) (b : Reservation) (execErr : Option String) :
    (ModifyReservation s (Except.ok b) execErr).2.vehicles = s.vehicles ∧
    (ModifyReservation s (Except.ok b) execErr).2.nextID = s.nextID ∧
    List.Forall₂
      (fun old new =>
        new.ID = old.ID ∧ new.UserID = old.UserID ∧ new.VehicleID = old.VehicleID ∧
        (old.ID ≠ b.ID → new = old) ∧
        (execErr = none → old.ID = b.ID →
          new.StartTime = b.StartTime ∧ new.EndTime = b.EndTime) ∧
        (execErr ≠ none → new = old))
      s.reservations (ModifyReservation s (Except.ok b) execErr).2.reservations ∧
    (execErr = none → (ModifyReservation s (Except.ok b) execErr).1 =
        ⟨200, Body.jsonString "Reservation updated successfully"⟩) := by
  cases execErr with
  | some e =>
    refine ⟨rfl, rfl, ?_, by simp⟩
    simp only [ModifyReservation]
    exact List.forall₂_same.mpr (fun x _ => by simp)
  | none =>
    refine ⟨rfl, rfl, ?_, fun _ => rfl⟩
    simp only [ModifyReservation, updateTimes]
    rw [List.forall₂_map_right_iff]
    refine List.forall₂_same.mpr (fun x _ => ?_)
    by_cases hx : x.ID = b.ID <;> simp [hx]

theorem ModifyReservation_frame_witness :
    (ModifyReservation
        ⟨[⟨7, "Civic", "unavailable"⟩], [⟨1, 3, 7, 10, 12⟩, ⟨2, 4, 8, 10, 12⟩], 3⟩
        (Except.ok ⟨1, 99, 98, 20, 30⟩) none).2 =
      ⟨[⟨7, "Civic", "unavailable"⟩], [⟨1, 3, 7, 20, 30⟩, ⟨2, 4, 8, 10, 12⟩], 3⟩ ∧
    (ModifyReservation
        ⟨[⟨7, "Civic", "unavailable"⟩], [⟨1, 3, 7, 10, 12⟩, ⟨2, 4, 8, 10, 12⟩], 3⟩
        (Except.ok ⟨1, 99, 98, 20, 30⟩) none).1 =
      ⟨200, Body.jsonString "Reservation updated successfully"⟩ :=
  ⟨by decide,
   (ModifyReservation_frame
      ⟨[⟨7, "Civic", "unavailable"⟩], [⟨1, 3, 7, 10, 12⟩, ⟨2, 4, 8, 10, 12⟩], 3⟩
      ⟨1, 99, 98, 20, 30⟩ none).2.2.2 rfl⟩

end reservationMS

namespace reservationMS

/-! ## C10: creation followed by cancellation -/

theorem release_after_create_vehicles (s : Store) (r : Reservation) (p : String)
    (hav : ∀ v ∈ s.vehicles, v.ID = r.VehicleID → v.IsAvailable = "available")
    (hfresh : s.Fresh) (hp : textToInt p = some s.nextID) :
    (releaseVehicle (markUnavailable (insertReservation s r) r.VehicleID) p).vehicles =
      s.vehicles := by
  have hold : ∀ q ∈ s.reservations, idMatches q.ID p = false := by
    intro q hq
    have hlt := hfresh q hq
    cases hm : idMatches q.ID p with
    | false => rfl
    | true =>
      have := (idMatches_iff q.ID p).mp hm
      rw [hp] at this
      injection this with this
      omega
  have hnew : idMatches s.nextID p = true := (idMatches_iff _ _).mpr hp
  simp only [releaseVehicle, markUnavailable, insertReservation, List.map_map]
  conv_rhs => rw [← List.map_id s.vehicles]
  apply List.map_congr_left
  intro w hw
  have hany : ∀ x : Int,
      (s.reservations ++ [Reservation.mk s.nextID r.UserID r.VehicleID r.StartTime r.EndTime]).any
        (fun q => idMatches q.ID p && q.VehicleID == x) = (r.VehicleID == x) := by
    intro x
    rw [List.any_append]
    have : s.reservations.any (fun q => idMatches q.ID p && q.VehicleID == x) = false := by
      rw [List.any_eq_false]
      intro q hq
      simp [hold q hq]
    simp [this, hnew]
  dsimp only [Function.comp, id]
  by_cases hid : w.ID = r.VehicleID
  · have hwa := hav w hw hid
    simp only [hid, beq_self_eq_true, if_true, hany]
    cases w
    simp_all
  · have h1 : (w.ID == r.VehicleID) = false := by simpa using hid
    have h2 : (r.VehicleID == w.ID) = false := by simpa using fun h => hid h.symm
    simp only [h1, hany, h2]
    simp
    intro h
    exact absurd h.symm hid

theorem delete_after_create_reservations (s : Store) (r : Reservation) (p : String)
    (hfresh : s.Fresh) (hp : textToInt p = some s.nextID) :
    (deleteReservation
        (releaseVehicle (markUnavailable (insertReservation s r) r.VehicleID) p) p).reservations =
      s.reservations := by
  have hnew : idMatches s.nextID p = true := (idMatches_iff _ _).mpr hp
  simp only [deleteReservation, releaseVehicle, markUnavailable, insertReservation,
    List.filter_append]
  have hkeep : s.reservations.filter (fun q => !idMatches q.ID p) = s.reservations := by
    rw [List.filter_eq_self]
    intro q hq
    have hlt := hfresh q hq
    cases hm : idMatches q.ID p with
    | false => rfl
    | true =>
      have := (idMatches_iff q.ID p).mp hm
      rw [hp] at this
      injection this with this
      omega
  rw [hkeep]
  simp [hnew]

/-- C10: from a store whose identity counter is ahead of its ledger and in
which the requested vehicle exists and is `available`, a `CreateReservation`
whose statements execute (answer 201) followed by a `CancelReservation` of the
identity that creation assigned, again with its statements executing (answer
200), leaves the `vehicles` table and the reservation ledger equal to what
they were before the creation. -/
theorem create_then_cancel_restores (s : Store) (r : Reservation) (p : String)
    (hex : ∃ v ∈ s.vehicles, v.ID = r.VehicleID)
    (hav : ∀ v ∈ s.vehicles, v.ID = r.VehicleID → v.IsAvailable = "available")
    (hfresh : s.Fresh)
    (hid : (CreateReservation s (Except.ok r) CreateFaults.ok).notified.map (fun n => n.ID) =
      textToInt p) :
    (CreateReservation s (Except.ok r) CreateFaults.ok).resp.status = 201 ∧
    (CancelReservation (CreateReservation s (Except.ok r) CreateFaults.ok).store
        p none none).1.status = 200 ∧
    (CancelReservation (CreateReservation s (Except.ok r) CreateFaults.ok).store
        p none none).2.vehicles = s.vehicles ∧
    (CancelReservation (CreateReservation s (Except.ok r) CreateFaults.ok).store
        p none none).2.reservations = s.reservations := by
  have hsel := selectIsAvailable_of_all hex hav
  rw [CreateReservation_of_available hsel] at hid ⊢
  have hp : textToInt p = some s.nextID := by simpa using hid.symm
  rw [CancelReservation_of_ne_empty (ne_empty_of_textToInt hp)]
  refine ⟨rfl, rfl, ?_, delete_after_create_reservations s r p hfresh hp⟩
  exact release_after_create_vehicles s r p hav hfresh hp

theorem create_then_cancel_restores_witness :
    (CancelReservation
        (CreateReservation
          ⟨[⟨7, "Civic", "available"⟩, ⟨8, "Golf", "unavailable"⟩], [⟨4, 5, 8, 1, 2⟩], 5⟩
          (Except.ok ⟨0, 3, 7, 10, 12⟩) CreateFaults.ok).store "5" none none).2.vehicles =
      [⟨7, "Civic", "available"⟩, ⟨8, "Golf", "unavailable"⟩] ∧
    (CancelReservation
        (CreateReservation
          ⟨[⟨7, "Civic", "available"⟩, ⟨8, "Golf", "unavailable"⟩], [⟨4, 5, 8, 1, 2⟩], 5⟩
          (Except.ok ⟨0, 3, 7, 10, 12⟩) CreateFaults.ok).store "5" none none).2.reservations =
      [⟨4, 5, 8, 1, 2⟩] :=
  (create_then_cancel_restores
      ⟨[⟨7, "Civic", "available"⟩, ⟨8, "Golf", "unavailable"⟩], [⟨4, 5, 8, 1, 2⟩], 5⟩
      ⟨0, 3, 7, 10, 12⟩ "5" ⟨⟨7, "Civic", "available"⟩, by decide, by decide⟩ (by decide)
      (by unfold Store.Fresh; decide) (by decide)).2.2

end reservationMS

namespace reservationMS

/-! ## C7: listing the available vehicles -/

/-- What `GetAvailableVehicles` answers when its read succeeds: status 200, the
store untouched, and as body `null` when no vehicle is `available`, otherwise
the array with one object per `available` vehicle, in table order, whose
fields are `id`, `model` and an `is_available` that is the empty text. -/
theorem GetAvailableVehicles_body (s : Store) :
    GetAvailableVehicles s none none =
      (⟨200,
        if s.vehicles.filter (fun v => v.IsAvailable == "available") = [] then Body.jsonNull
        else Body.jsonArray
          ((s.vehicles.filter (fun v => v.IsAvailable == "available")).map
            (fun v => [("id", Scalar.num v.ID), ("model", Scalar.str v.Model),
              ("is_available", Scalar.str "")]))⟩, s) := by
  rw [GetAvailableVehicles_ok]
  unfold selectAvailable
  cases hf : s.vehicles.filter (fun v => v.IsAvailable == "available") with
  | nil => simp [scanRows_nil, encodeVehicles]
  | cons v rest =>
    rw [List.map_cons, scanRows_cons]
    simp [encodeVehicles, encodeVehicle, Function.comp_def]

/-- C7, at a store in which no vehicle is `available`: the read succeeds, the
answer is 200 and the store is unchanged, but the body is JSON `null`, not an
array; and at a store with one `available` vehicle the single entry carries a
third field `is_available`. -/
theorem GetAvailableVehicles_none_available :
    GetAvailableVehicles ⟨[⟨8, "Golf", "unavailable"⟩], [], 1⟩ none none =
      (⟨200, Body.jsonNull⟩, ⟨[⟨8, "Golf", "unavailable"⟩], [], 1⟩) ∧
    (∀ items, (GetAvailableVehicles ⟨[⟨8, "Golf", "unavailable"⟩], [], 1⟩ none none).1.body ≠
      Body.jsonArray items) ∧
    GetAvailableVehicles ⟨[⟨7, "Civic", "available"⟩, ⟨8, "Golf", "unavailable"⟩], [], 1⟩
        none none =
      (⟨200, Body.jsonArray
          [[("id", Scalar.num 7), ("model", Scalar.str "Civic"),
            ("is_available", Scalar.str "")]]⟩,
        ⟨[⟨7, "Civic", "available"⟩, ⟨8, "Golf", "unavailable"⟩], [], 1⟩) := by
  refine ⟨by decide, ?_, by decide⟩
  intro items h
  have : (GetAvailableVehicles ⟨[⟨8, "Golf", "unavailable"⟩], [], 1⟩ none none).1.body =
      Body.jsonNull := by decide
  rw [this] at h
  exact Body.noConfusion h

end reservationMS

namespace users

open reservationMS (Response Body)

/-! ## C8, C9: membership validation and registration -/

/-- C8: `ValidateMembership m` holds exactly when the lower-cased `m` is
`basic` or `premium`; and for a decoded registration body, `registerUser`
answers 400 with the invalid-membership text and leaves the `users` table as
it was exactly when `ValidateMembership` of the body's membership level is
false (when it is true the answer is never a 400). -/
theorem registerUser_membership_gate :
    (∀ m : String,
      ValidateMembership m = true ↔ (ToLower m = "basic" ∨ ToLower m = "premium")) ∧
    (∀ (hash : String → Except String String) (table : List User) (user : User)
        (insertErr : Option String),
      (((registerUser hash table (Except.ok user) insertErr).1 =
          ⟨400, Body.text "Invalid membership level. It must be 'Basic' or 'Premium'."⟩ ∧
        (registerUser hash table (Except.ok user) insertErr).2 = table) ↔
        ValidateMembership user.Membership = false) ∧
      (ValidateMembership user.Membership = true →
        (registerUser hash table (Except.ok user) insertErr).1.status ≠ 400)) := by
  refine ⟨fun m => by simp [ValidateMembership], ?_⟩
  intro hash table user insertErr
  cases hv : ValidateMembership user.Membership with
  | false => simp [registerUser, hv]
  | true =>
    cases hh : hash user.Password with
    | error e => simp [registerUser, hv, hh]
    | ok hashed =>
      cases insertErr with
      | some e => simp [registerUser, hv, hh]
      | none => simp [registerUser, hv, hh]

theorem registerUser_membership_gate_witness :
    ValidateMembership "Premium" = true ∧
    (registerUser (fun pw => Except.ok pw) [] (Except.ok ⟨"a@b.c", "pw", "", "gold"⟩) none).1 =
      ⟨400, Body.text "Invalid membership level. It must be 'Basic' or 'Premium'."⟩ ∧
    (registerUser (fun pw => Except.ok pw) [] (Except.ok ⟨"a@b.c", "pw", "", "gold"⟩) none).2 =
      [] :=
  ⟨(registerUser_membership_gate.1 "Premium").mpr (Or.inr (by decide)),
   ((registerUser_membership_gate.2 (fun pw => Except.ok pw) []
      ⟨"a@b.c", "pw", "", "gold"⟩ none).1.mpr (by decide))⟩

/-- C9, refuted: the body with membership level `Basic` is accepted (201) and
the record inserted carries `Basic`, which is neither `basic` nor `premium`. -/
theorem registerUser_inserts_raw_membership :
    registerUser (fun pw => Except.ok pw) [] (Except.ok ⟨"a@b.c", "pw", "", "Basic"⟩) none =
      (⟨201, Body.jsonString "User successfully registered"⟩, [⟨"a@b.c", "pw", "", "Basic"⟩]) ∧
    ¬ (∀ u ∈ (registerUser (fun pw => Except.ok pw) []
          (Except.ok ⟨"a@b.c", "pw", "", "Basic"⟩) none).2,
        u.Membership = "basic" ∨ u.Membership = "premium") := by
  decide

/-- C9, amended: `registerUser` either leaves the `users` table as it was or
appends exactly one record, and then the body decoded to a user whose
membership level lower-cases to `basic` or `premium`; the record carries that
membership level as the body gave it, with the body's email and phone and the
hashed password. -/
theorem registerUser_inserted_membership (hash : String → Except String String)
    (table : List User) (body : Except String User) (insertErr : Option String) :
    (registerUser hash table body insertErr).2 = table ∨
    ∃ user hashed, body = Except.ok user ∧ hash user.Password = Except.ok hashed ∧
      (registerUser hash table body insertErr).2 =
        table ++ [⟨user.Email, hashed, user.Phone, user.Membership⟩] ∧
      (ToLower user.Membership = "basic" ∨ ToLower user.Membership = "premium") := by
  cases body with
  | error e => exact Or.inl rfl
  | ok user =>
    cases hv : ValidateMembership user.Membership with
    | false => left; simp [registerUser, hv]
    | true =>
      cases hh : hash user.Password with
      | error e => left; simp [registerUser, hv, hh]
      | ok hashed =>
        cases insertErr with
        | some e => left; simp [registerUser, hv, hh]
        | none =>
          right
          refine ⟨user, hashed, rfl, hh, by simp [registerUser, hv, hh], ?_⟩
          simpa [ValidateMembership] using hv

end users

namespace reservationMS

/-! ## C2: availability mirrors the ledger -/

theorem refCount_insert_mark (s : Store) (r : Reservation) (x : Int) :
    refCount (markUnavailable (insertReservation s r) r.VehicleID) x =
      refCount s x + (if r.VehicleID = x then 1 else 0) := by
  simp only [refCount, markUnavailable, insertReservation, List.countP_append]
  by_cases h : r.VehicleID = x <;> simp [h]

theorem refCount_updateTimes (s : Store) (st en : Time) (id x : Int) :
    refCount (updateTimes s st en id) x = refCount s x := by
  simp only [refCount, updateTimes, List.countP_map]
  congr 1
  funext q
  by_cases h : q.ID = id <;> simp [h]

theorem refCount_cancel_split (s : Store) (p : String) (x : Int) :
    refCount s x =
      (s.reservations.filter (fun q => idMatches q.ID p)).countP (fun q => q.VehicleID == x) +
      refCount (deleteReservation (releaseVehicle s p) p) x := by
  simp only [refCount, deleteReservation, releaseVehicle]
  exact List.countP_eq_countP_filter_add _ _ _

theorem Mirrors_create (s : Store) (body : Except String Reservation) (h : Mirrors s) :
    Mirrors (CreateReservation s body CreateFaults.ok).store := by
  cases body with
  | error e => exact h
  | ok r =>
    by_cases hsel : selectIsAvailable s r.VehicleID = some "available"
    · rw [CreateReservation_of_available hsel]
      obtain ⟨w0, hw0, hid0, hav0⟩ := selectIsAvailable_eq_some hsel
      have hzero : refCount s r.VehicleID = 0 := by
        rcases h w0 hw0 with h1 | h1
        · rw [← hid0]; exact h1.2
        · rw [hav0] at h1
          exact absurd h1.1 (by decide)
      intro v hv
      obtain ⟨w, hw, hvw, _, hcase | hcase⟩ := mem_markUnavailable hv
      · right
        refine ⟨hcase.2, ?_⟩
        rw [refCount_insert_mark, hvw, hcase.1, hzero]
        simp
      · rw [refCount_insert_mark, hcase.2]
        have hne : ¬ (r.VehicleID = w.ID) := fun hc => hcase.1 hc.symm
        simpa [hne] using h w hw
    · have : CreateReservation s (Except.ok r) CreateFaults.ok =
          ⟨⟨400, Body.text "Vehicle not available"⟩, s, none⟩ := by
        simp [CreateReservation, CreateFaults.ok, hsel]
      rw [this]
      exact h

theorem Mirrors_modify (s : Store) (body : Except String Reservation) (h : Mirrors s) :
    Mirrors (ModifyReservation s body none).2 := by
  cases body with
  | error e => exact h
  | ok r =>
    intro v hv
    have hv1 : v ∈ s.vehicles := hv
    have := h v hv1
    simpa [ModifyReservation, refCount_updateTimes] using this

theorem Mirrors_cancel (s : Store) (p : String) (h : Mirrors s) :
    Mirrors (CancelReservation s p none none).2 := by
  by_cases hp : p = ""
  · subst hp
    exact h
  · rw [CancelReservation_of_ne_empty hp]
    intro v hv
    simp only [deleteReservation, releaseVehicle, List.mem_map] at hv
    obtain ⟨w, hw, rfl⟩ := hv
    have hsplit := refCount_cancel_split s p w.ID
    have hle : refCount s w.ID ≤ 1 := by
      rcases h w hw with h1 | h1 <;> omega
    by_cases hany : s.reservations.any (fun q => idMatches q.ID p && q.VehicleID == w.ID) = true
    · left
      rw [if_pos hany]
      refine ⟨rfl, ?_⟩
      have hpos : 0 < (s.reservations.filter (fun q => idMatches q.ID p)).countP
          (fun q => q.VehicleID == w.ID) := by
        rw [List.countP_pos_iff]
        rw [List.any_eq_true] at hany
        obtain ⟨q, hq, hqm⟩ := hany
        simp only [Bool.and_eq_true] at hqm
        exact ⟨q, List.mem_filter.mpr ⟨hq, hqm.1⟩, hqm.2⟩
      show refCount (deleteReservation (releaseVehicle s p) p) w.ID = 0
      omega
    · rw [if_neg hany]
      have hzero : (s.reservations.filter (fun q => idMatches q.ID p)).countP
          (fun q => q.VehicleID == w.ID) = 0 := by
        rw [List.countP_eq_zero]
        intro q hq hqv
        apply hany
        rw [List.any_eq_true]
        have := List.mem_filter.mp hq
        exact ⟨q, this.1, by simp [this.2, hqv]⟩
      have heq : refCount (deleteReservation (releaseVehicle s p) p) w.ID = refCount s w.ID := by
        omega
      rw [heq]
      exact h w hw

theorem Mirrors_perform (s : Store) (c : Call) (h : Mirrors s) : Mirrors (perform s c) := by
  cases c with
  | create body => exact Mirrors_create s body h
  | modify body => exact Mirrors_modify s body h
  | cancel p => exact Mirrors_cancel s p h

theorem Mirrors_performAll (s : Store) (calls : List Call) (h : Mirrors s) :
    Mirrors (performAll s calls) := by
  induction calls generalizing s with
  | nil => exact h
  | cons c rest ih => exact ih (perform s c) (Mirrors_perform s c h)

/-- C2: from a store with an empty ledger and every vehicle `available`, after
any sequence of `CreateReservation`, `ModifyReservation` and
`CancelReservation` calls run one after another with every store statement
executing, a vehicle of the table is `unavailable` if and only if exactly one
reservation of the ledger references it. -/
theorem availability_mirrors_ledger (s0 : Store) (calls : List Call)
    (hledger : s0.reservations = [])
    (havail : ∀ v ∈ s0.vehicles, v.IsAvailable = "available") :
    ∀ v ∈ (performAll s0 calls).vehicles,
      (v.IsAvailable = "unavailable" ↔ refCount (performAll s0 calls) v.ID = 1) := by
  have h0 : Mirrors s0 := by
    intro v hv
    left
    exact ⟨havail v hv, by simp [refCount, hledger]⟩
  intro v hv
  rcases Mirrors_performAll s0 calls h0 v hv with h1 | h1
  · constructor
    · intro hc
      rw [h1.1] at hc
      exact absurd hc (by decide)
    · intro hc
      omega
  · exact ⟨fun _ => h1.2, fun _ => h1.1⟩

theorem availability_mirrors_ledger_witness :
    performAll ⟨[⟨7, "Civic", "available"⟩, ⟨8, "Golf", "available"⟩], [], 1⟩
        [Call.create (Except.ok ⟨0, 3, 7, 10, 12⟩), Call.create (Except.ok ⟨0, 4, 7, 10, 12⟩),
         Call.create (Except.ok ⟨0, 4, 8, 10, 12⟩), Call.modify (Except.ok ⟨1, 0, 0, 11, 13⟩),
         Call.cancel "2"] =
      ⟨[⟨7, "Civic", "unavailable"⟩, ⟨8, "Golf", "available"⟩], [⟨1, 3, 7, 11, 13⟩], 3⟩ ∧
    ∀ v ∈ (performAll ⟨[⟨7, "Civic", "available"⟩, ⟨8, "Golf", "available"⟩], [], 1⟩
        [Call.create (Except.ok ⟨0, 3, 7, 10, 12⟩), Call.create (Except.ok ⟨0, 4, 7, 10, 12⟩),
         Call.create (Except.ok ⟨0, 4, 8, 10, 12⟩), Call.modify (Except.ok ⟨1, 0, 0, 11, 13⟩),
         Call.cancel "2"]).vehicles,
      (v.IsAvailable = "unavailable" ↔
        refCount (performAll ⟨[⟨7, "Civic", "available"⟩, ⟨8, "Golf", "available"⟩], [], 1⟩
          [Call.create (Except.ok ⟨0, 3, 7, 10, 12⟩), Call.create (Except.ok ⟨0, 4, 7, 10, 12⟩),
           Call.create (Except.ok ⟨0, 4, 8, 10, 12⟩), Call.modify (Except.ok ⟨1, 0, 0, 11, 13⟩),
           Call.cancel "2"]) v.ID = 1) :=
  ⟨by decide,
   availability_mirrors_ledger ⟨[⟨7, "Civic", "available"⟩, ⟨8, "Golf", "available"⟩], [], 1⟩
     _ rfl (by decide)⟩

end reservationMS

namespace reservationMS

/-! ## C6: two creations in flight -/

theorem selectIsAvailable_insert (s : Store) (r : Reservation) (x : Int) :
    selectIsAvailable (insertReservation s r) x = selectIsAvailable s x := rfl

theorem selectIsAvailable_mark (s : Store) (x : Int) :
    (selectIsAvailable (markUnavailable s x) x != some "available") = true := by
  simp only [bne_iff_ne, ne_eq]
  intro hc
  obtain ⟨v, hv, hid, hav⟩ := selectIsAvailable_eq_some hc
  obtain ⟨w, _, hvw, _, h | h⟩ := mem_markUnavailable hv
  · rw [h.2] at hav
    exact absurd hav (by decide)
  · exact h.1 (hvw ▸ hid)

/-- The three statements of a call, run without interruption, are the handler
`CreateReservation` on a decoded body. -/
theorem stepCreate_thrice (s : Store) (r : Reservation) :
    stepCreate (stepCreate (stepCreate s (Progress.start r)).1
        (stepCreate s (Progress.start r)).2).1
      (stepCreate (stepCreate s (Progress.start r)).1 (stepCreate s (Progress.start r)).2).2 =
    ((CreateReservation s (Except.ok r) CreateFaults.ok).store,
      Progress.done (CreateReservation s (Except.ok r) CreateFaults.ok).resp) := by
  by_cases h : selectIsAvailable s r.VehicleID = some "available"
  · simp [stepCreate, CreateReservation, CreateFaults.ok, h]
  · simp [stepCreate, CreateReservation, CreateFaults.ok, h]

/-- C6, refuted: at a store in which vehicle 7 is `available`, the schedule in
which both calls read the availability before either one updates it ends with
both calls answered 201 and two reservations of vehicle 7 in the ledger. -/
theorem concurrent_creates_double_book :
    runSchedule ⟨[⟨7, "Civic", "available"⟩], [], 1⟩ ⟨0, 3, 7, 10, 12⟩ ⟨0, 4, 7, 10, 12⟩
        [false, true, false, false, true, true] =
      ⟨⟨[⟨7, "Civic", "unavailable"⟩], [⟨1, 3, 7, 10, 12⟩, ⟨2, 4, 7, 10, 12⟩], 3⟩,
        Progress.done ⟨201, Body.jsonString "Reservation created successfully"⟩,
        Progress.done ⟨201, Body.jsonString "Reservation created successfully"⟩⟩ := by
  decide

/-- C6, amended: for a store in which the vehicle both calls target exists and
is `available`, and every schedule that runs the three statements of each
call: when the statements of one call all run before those of the other, that
call is answered 201 and the other 400 "Vehicle not available"; under every
other interleaving both calls are answered 201. -/
theorem concurrent_creates_outcomes (s : Store) (r1 r2 : Reservation) (schedule : List Bool)
    (h12 : r2.VehicleID = r1.VehicleID)
    (hex : ∃ v ∈ s.vehicles, v.ID = r1.VehicleID)
    (hav : ∀ v ∈ s.vehicles, v.ID = r1.VehicleID → v.IsAvailable = "available")
    (hfirst : schedule.count false = 3) (hsecond : schedule.count true = 3) :
    (schedule = [false, false, false, true, true, true] →
      (runSchedule s r1 r2 schedule).first = Progress.done created ∧
      (runSchedule s r1 r2 schedule).second = Progress.done vehicleUnavailable) ∧
    (schedule = [true, true, true, false, false, false] →
      (runSchedule s r1 r2 schedule).first = Progress.done vehicleUnavailable ∧
      (runSchedule s r1 r2 schedule).second = Progress.done created) ∧
    (¬ Serial schedule →
      (runSchedule s r1 r2 schedule).first = Progress.done created ∧
      (runSchedule s r1 r2 schedule).second = Progress.done created) := by
  have hsel := selectIsAvailable_of_all hex hav
  have hlen : schedule.length = 6 := by
    have := List.count_true_add_count_false schedule
    omega
  obtain ⟨a, b, c, d, e, g, rfl⟩ : ∃ a b c d e g, schedule = [a, b, c, d, e, g] := by
    match schedule, hlen with
    | [a, b, c, d, e, g], _ => exact ⟨a, b, c, d, e, g, rfl⟩
  cases a <;> cases b <;> cases c <;> cases d <;> cases e <;> cases g <;>
    first
    | exact absurd hfirst (by decide)
    | simp [Serial, runSchedule, stepConfig, stepCreate, created, vehicleUnavailable, hsel,
        h12, selectIsAvailable_insert, selectIsAvailable_mark]

end reservationMS

namespace reservationMS

theorem concurrent_creates_outcomes_witness :
    (runSchedule ⟨[⟨7, "Civic", "available"⟩], [], 1⟩ ⟨0, 3, 7, 10, 12⟩ ⟨0, 4, 7, 10, 12⟩
        [false, false, false, true, true, true]).first = Progress.done created ∧
    (runSchedule ⟨[⟨7, "Civic", "available"⟩], [], 1⟩ ⟨0, 3, 7, 10, 12⟩ ⟨0, 4, 7, 10, 12⟩
        [false, false, false, true, true, true]).second = Progress.done vehicleUnavailable :=
  (concurrent_creates_outcomes ⟨[⟨7, "Civic", "available"⟩], [], 1⟩ ⟨0, 3, 7, 10, 12⟩
      ⟨0, 4, 7, 10, 12⟩ [false, false, false, true, true, true] rfl
      ⟨⟨7, "Civic", "available"⟩, by decide, by decide⟩ (by decide) (by decide) (by decide)).1 rfl

/-! ## The identity counter stays ahead of the ledger -/

theorem Fresh_of_empty (s : Store) (h : s.reservations = []) : s.Fresh := by
  intro r hr
  rw [h] at hr
  exact absurd hr (List.not_mem_nil r)

theorem Fresh_perform (s : Store) (c : Call) (h : s.Fresh) : (perform s c).Fresh := by
  cases c with
  | create body =>
    cases body with
    | error e => exact h
    | ok r =>
      by_cases hsel : selectIsAvailable s r.VehicleID = some "available"
      · simp only [perform, CreateReservation_of_available hsel]
        intro q hq
        simp only [markUnavailable, insertReservation, List.mem_append,
          List.mem_singleton] at hq ⊢
        rcases hq with hq | hq
        · have := h q hq
          omega
        · subst hq
          simp
      · have : CreateReservation s (Except.ok r) CreateFaults.ok =
            ⟨⟨400, Body.text "Vehicle not available"⟩, s, none⟩ := by
          simp [CreateReservation, CreateFaults.ok, hsel]
        simp only [perform, this]
        exact h
  | modify body =>
    cases body with
    | error e => exact h
    | ok r =>
      intro q hq
      simp only [perform, ModifyReservation, updateTimes, List.mem_map] at hq ⊢
      obtain ⟨q0, hq0, rfl⟩ := hq
      have := h q0 hq0
      by_cases hid : q0.ID = r.ID <;> simpa [hid] using this
  | cancel p =>
    by_cases hp : p = ""
    · subst hp
      exact h
    · simp only [perform, CancelReservation_of_ne_empty hp]
      intro q hq
      simp only [deleteReservation, releaseVehicle, List.mem_filter] at hq ⊢
      exact h q hq.1

theorem Fresh_performAll (s : Store) (calls : List Call) (h : s.Fresh) :
    (performAll s calls).Fresh := by
  induction calls generalizing s with
  | nil => exact h
  | cons c rest ih => exact ih (perform s c) (Fresh_perform s c h)

end reservationMS
